import Mathlib

/-!
Verification development for the generic MongoDB admin panel (`src/index.js`).

The source is an Express application over the MongoDB driver.  We give a
shallow embedding of its document-access layer: BSON values, documents,
the query predicates the handlers build (`$or`, `$in`, regex, equality),
the Express route handlers for browse / list-collections / get-one /
update / delete-one / bulk-delete, and the process-wide connection slot
(`mongoClient` / `db` / `isConnected`).  Machine behaviour that lives in
the driver (regex matching, BSON comparison for sorts, `$set` application)
is embedded with executable Lean functions that follow the driver's
documented semantics on the value fragment the handlers use.
-/

/-- BSON scalar values as used by the documents in scope: null, 32/64-bit
integers (modelled as `Int`; the handlers never overflow them), strings,
ObjectIds (carried as their canonical lowercase 24-hex text) and dates
(milliseconds since epoch). -/
inductive Value where
  | null : Value
  | int : Int → Value
  | str : String → Value
  | oid : String → Value
  | date : Int → Value
deriving DecidableEq, Repr

/-- A BSON document: field names mapped to values.  JS objects and BSON
documents have unique keys; the embedding's field operations read the
first binding, which coincides with JS semantics on unique-key objects. -/
abbrev Doc := List (String × Value)

/-- The database handle's data: named collections of documents. -/
abbrev DBVal := List (String × List Doc)

/-- `doc[key]`: first binding of `key` in the document, if any. -/
def getField (d : Doc) (k : String) : Option Value :=
  (d.find? (fun p => p.1 == k)).map (fun p => p.2)

/-- `doc[key] = v` (JS assignment / one `$set` field): replace the value at
the key's binding if present, else append the binding. -/
def setField : Doc → String → Value → Doc
  | [], k, v => [(k, v)]
  | p :: rest, k, v =>
    if p.1 == k then (k, v) :: rest else p :: setField rest k v

/-- `delete obj[key]` in JS: remove the binding entirely. -/
def removeField (d : Doc) (k : String) : Doc :=
  d.filter (fun p => p.1 != k)

/-- Apply a `$set` payload: assign each field in order. -/
def applySet (d : Doc) (sets : List (String × Value)) : Doc :=
  sets.foldl (fun acc p => setField acc p.1 p.2) d

/-- `ObjectId.isValid` on the string ids in scope: exactly 24 hex
characters (the driver additionally accepts 12-byte buffers, which cannot
arrive through these URL-string routes). -/
def isValidObjectId (s : String) : Bool :=
  s.length == 24 && s.data.all (fun c =>
    c.isDigit || ('a' ≤ c && c ≤ 'f') || ('A' ≤ c && c ≤ 'F'))

/-- Lowercase a string character-wise (ASCII suffices for hex ids). -/
def lowerStr (s : String) : String :=
  String.mk (s.data.map Char.toLower)

/-- `new ObjectId(hex)` normalises the hex text; documents store the
canonical lowercase form. -/
def mkObjectId (s : String) : Value :=
  Value.oid (lowerStr s)

/-! ### Regular expressions

`new RegExp(search, 'i')` compiles the raw search string.  The handlers
only ever feed it user text, so we embed the fragment of JS regex syntax
needed to observe the behaviour: `.` (any character except a line
terminator, since the `s`/dotAll flag is never set), the class escapes
`\d` `\D` `\w` `\W` `\s` `\S`, control escapes, escaped literals,
and plain literal characters, with the `i` flag realised by lowercasing
both sides.  MongoDB applies a field regex as an unanchored substring
search on string values only. -/

/-- ECMAScript line terminators, which `.` without dotAll never matches:
LF, CR, LINE SEPARATOR, PARAGRAPH SEPARATOR. -/
def isLineTerminator (c : Char) : Bool :=
  c == '\n' || c == '\r' || c == '\u2028' || c == '\u2029'

/-- A character class named by a class escape. -/
inductive RClass where
  | digit : RClass
  | word : RClass
  | space : RClass
deriving DecidableEq, Repr

/-- Membership in a class: `\d` is 0-9, `\w` is alphanumerics plus
underscore, `\s` is the JS whitespace set (the ASCII whitespace plus
NBSP, the line/paragraph separators and the BOM; the rarer Unicode space
separators do not occur in the ids and contact fields in scope). -/
def classMatch : RClass → Char → Bool
  | RClass.digit, c => c.isDigit
  | RClass.word, c => c.isAlphanum || c == '_'
  | RClass.space, c =>
    c == ' ' || c == '\t' || c == '\n' || c == '\r' || c == '\x0b' ||
    c == '\x0c' || c == '\u00a0' || c == '\u2028' || c == '\u2029' || c == '\ufeff'

/-- One compiled regex element: the wildcard `.`, a literal character
(stored lowercased for the `i` flag), or a possibly negated class. -/
inductive RChar where
  | dot : RChar
  | lit : Char → RChar
  | cls : RClass → Bool → RChar
deriving DecidableEq, Repr

/-- Compile a pattern string (as a char list): `\d`/`\D`/`\w`/`\W`/`\s`/`\S`
are (negated) classes, `\n`/`\r`/`\t` control escapes, any other `\c` an
escaped literal, `.` the wildcard, anything else a literal. -/
def parseRegexAux : List Char → List RChar
  | [] => []
  | '\\' :: c :: rest =>
    (match c with
     | 'd' => RChar.cls RClass.digit false
     | 'D' => RChar.cls RClass.digit true
     | 'w' => RChar.cls RClass.word false
     | 'W' => RChar.cls RClass.word true
     | 's' => RChar.cls RClass.space false
     | 'S' => RChar.cls RClass.space true
     | 'n' => RChar.lit '\n'
     | 'r' => RChar.lit '\r'
     | 't' => RChar.lit '\t'
     | c2 => RChar.lit c2.toLower) :: parseRegexAux rest
  | '\\' :: [] => []
  | '.' :: rest => RChar.dot :: parseRegexAux rest
  | c :: rest => RChar.lit c.toLower :: parseRegexAux rest

/-- Compile a pattern string. -/
def parseRegex (s : String) : List RChar :=
  parseRegexAux s.data

/-- Match the whole compiled pattern against a prefix of the text:
the wildcard refuses line terminators, a literal compares lowercased,
a class tests membership (flipped when negated). -/
def matchHere : List RChar → List Char → Bool
  | [], _ => true
  | RChar.dot :: ps, c :: cs => !isLineTerminator c && matchHere ps cs
  | RChar.lit a :: ps, c :: cs => c.toLower == a && matchHere ps cs
  | RChar.cls k neg :: ps, c :: cs => (classMatch k c != neg) && matchHere ps cs
  | _ :: _, [] => false

/-- Unanchored search: the pattern matches at some position of the text. -/
def reSearch (ps : List RChar) : List Char → Bool
  | [] => matchHere ps []
  | c :: cs => matchHere ps (c :: cs) || reSearch ps cs

/-- JS `regex.test(s)` for the case-insensitive regexes the handlers build. -/
def regexTest (pat : String) (s : String) : Bool :=
  reSearch (parseRegex pat) s.data

/-! ### Query predicates

The handlers build queries as JS objects whose top-level keys are either
`$or` (a list of single-field clauses) or a field name with a simple
condition.  We embed exactly that shape. -/

/-- A simple per-field condition: equality, case-insensitive regex,
`$in` a value list, or `$lt` a value (same-type comparison only, as BSON
comparison operators do not cross type brackets). -/
inductive SimpleCond where
  | eqVal : Value → SimpleCond
  | regex : String → SimpleCond
  | inVals : List Value → SimpleCond
  | lt : Value → SimpleCond
deriving DecidableEq, Repr

/-- One `$or` alternative: a single field with a simple condition. -/
structure OrClause where
  field : String
  cond : SimpleCond
deriving DecidableEq, Repr

/-- The value at a top-level query key. -/
inductive QVal where
  | orList : List OrClause → QVal
  | simple : SimpleCond → QVal

/-- A query object: top-level keys with their conditions. -/
abbrev Query := List (String × QVal)

/-- `$lt` on values: comparison inside one type bracket only. -/
def valueLt : Value → Value → Bool
  | Value.int a, Value.int b => decide (a < b)
  | Value.str a, Value.str b => decide (a < b)
  | Value.date a, Value.date b => decide (a < b)
  | _, _ => false

/-- Evaluate a simple condition against a present field value. -/
def evalSimple : SimpleCond → Value → Bool
  | SimpleCond.eqVal v, w => v == w
  | SimpleCond.regex p, Value.str s => regexTest p s
  | SimpleCond.regex _, _ => false
  | SimpleCond.inVals vs, w => vs.any (fun x => x == w)
  | SimpleCond.lt v, w => valueLt w v

/-- Evaluate a `$or` alternative: the named field must be present and
satisfy the condition (an absent field satisfies none of the conditions
the handlers use). -/
def evalClause (cl : OrClause) (d : Doc) : Bool :=
  match getField d cl.field with
  | some v => evalSimple cl.cond v
  | none => false

/-- Evaluate one top-level query entry. -/
def evalEntry (k : String) (qv : QVal) (d : Doc) : Bool :=
  match qv with
  | QVal.orList cls => cls.any (fun cl => evalClause cl d)
  | QVal.simple c =>
    match getField d k with
    | some v => evalSimple c v
    | none => false

/-- A document matches a query when it satisfies every top-level entry. -/
def evalQuery (q : Query) (d : Doc) : Bool :=
  q.all (fun p => evalEntry p.1 p.2 d)

/-- `q.hasOwnProperty(k)` on a query object. -/
def hasKey (q : Query) (k : String) : Bool :=
  q.any (fun p => p.1 == k)

/-- JS object spread `{...a, ...b}`: the mapping with `b`'s value on every
key of `b` and `a`'s value on its remaining keys.  (Spread keeps colliding
keys at `a`'s position; only the key-to-value mapping is observable to
query evaluation, so the embedding places them at `b`'s.) -/
def mergeObj (a b : Query) : Query :=
  a.filter (fun p => !hasKey b p.1) ++ b

/-! ### The connection slot and the route handlers -/

/-- The process-wide mutable slot (`db`, `isConnected`).  `mongoClient`
itself is never read by the data handlers, so it is not carried. -/
structure ServerState where
  db : Option DBVal
  isConnected : Bool

/-- The state both before any successful connect and after
`POST /api/disconnect`: `db = null`, `isConnected = false`. -/
def disconnectedState : ServerState :=
  ServerState.mk none false

/-- Outcomes of a handler, keyed by the HTTP status the source sends:
`ok` (200 JSON), `notConnected` (503 "Not connected to any database"),
`notFound` (404), `validationError` (400), `internalError` (a thrown
error caught by the handler's `catch` and surfaced as 500). -/
inductive ApiResult (α : Type) where
  | ok : α → ApiResult α
  | notConnected : ApiResult α
  | notFound : ApiResult α
  | validationError : ApiResult α
  | internalError : ApiResult α
deriving DecidableEq, Repr

/-- `db.collection(name)`: collections are materialised lazily, so an
unknown name reads as the empty collection. -/
def getColl (dbv : DBVal) (n : String) : List Doc :=
  match dbv.find? (fun p => p.1 == n) with
  | some p => p.2
  | none => []

/-- Write back a collection's contents under its name. -/
def setColl (dbv : DBVal) (n : String) (coll : List Doc) : DBVal :=
  if dbv.any (fun p => p.1 == n) then
    dbv.map (fun p => if p.1 == n then (n, coll) else p)
  else
    dbv ++ [(n, coll)]

/-- `collection.findOne(q)`: first matching document in natural order. -/
def findOneColl (coll : List Doc) (q : Query) : Option Doc :=
  coll.find? (fun d => evalQuery q d)

/-- `collection.updateOne(q, {$set: sets})`: rewrite the first matching
document; returns (new contents, matchedCount, modifiedCount). -/
def updateOneColl (coll : List Doc) (q : Query) (sets : List (String × Value)) :
    List Doc × Nat × Nat :=
  match coll with
  | [] => ([], 0, 0)
  | d :: rest =>
    if evalQuery q d then
      let d2 := applySet d sets
      (d2 :: rest, 1, if d2 == d then 0 else 1)
    else
      let r := updateOneColl rest q sets
      (d :: r.1, r.2.1, r.2.2)

/-- `collection.deleteOne(q)`: remove the first matching document;
returns (new contents, deletedCount). -/
def deleteOneColl (coll : List Doc) (q : Query) : List Doc × Nat :=
  match coll with
  | [] => ([], 0)
  | d :: rest =>
    if evalQuery q d then (rest, 1)
    else
      let r := deleteOneColl rest q
      (d :: r.1, r.2)

/-- `collection.deleteMany(q)`: remove every matching document;
returns (new contents, deletedCount). -/
def deleteManyColl (coll : List Doc) (q : Query) : List Doc × Nat :=
  (coll.filter (fun d => !evalQuery q d), coll.countP (fun d => evalQuery q d))

/-- `GET /api/collections` (list collections with document counts).
The handler guards with `if (!isConnected || !db) return 503`. -/
def listCollections (st : ServerState) : ApiResult (List (String × Nat)) :=
  match st.isConnected, st.db with
  | true, some dbv => ApiResult.ok (dbv.map (fun p => (p.1, p.2.length)))
  | _, _ => ApiResult.notConnected

/-- The `$or` fallback predicate of `GET /api/collections/:name/:id`
(lines 270-277): sessionId, userId, chatId, and the raw string `_id`. -/
def getOneAltPred (id : String) : Query :=
  [("$or", QVal.orList
    [OrClause.mk "sessionId" (SimpleCond.eqVal (Value.str id)),
     OrClause.mk "userId" (SimpleCond.eqVal (Value.str id)),
     OrClause.mk "chatId" (SimpleCond.eqVal (Value.str id)),
     OrClause.mk "_id" (SimpleCond.eqVal (Value.str id))])]

/-- The primary-key predicate `{_id: new ObjectId(id)}`. -/
def pkPred (id : String) : Query :=
  [("_id", QVal.simple (SimpleCond.eqVal (mkObjectId id)))]

/-- The document lookup of the get-one handler: try the ObjectId form when
the id validly encodes, then fall back to the alternate-field `$or`. -/
def getOneFind (coll : List Doc) (id : String) : Option Doc :=
  let d1 := if isValidObjectId id then findOneColl coll (pkPred id) else none
  match d1 with
  | some d => some d
  | none => findOneColl coll (getOneAltPred id)

/-- `GET /api/collections/:collectionName/:id`: no connection guard — the
handler dereferences `db` directly, so with `db = null` the property
access throws and the `catch` turns it into a 500. -/
def getOne (st : ServerState) (n id : String) : ApiResult Doc :=
  match st.db with
  | none => ApiResult.internalError
  | some dbv =>
    match getOneFind (getColl dbv n) id with
    | some d => ApiResult.ok d
    | none => ApiResult.notFound

/-- The match predicate of the update handler (lines 302-315): the
ObjectId form alone when the id validly encodes, else `$or` over
sessionId, userId, chatId. -/
def updatePred (id : String) : Query :=
  if isValidObjectId id then pkPred id
  else
    [("$or", QVal.orList
      [OrClause.mk "sessionId" (SimpleCond.eqVal (Value.str id)),
       OrClause.mk "userId" (SimpleCond.eqVal (Value.str id)),
       OrClause.mk "chatId" (SimpleCond.eqVal (Value.str id))])]

/-- The match predicate of the delete handler (lines 339-348); textually
the same two branches as the update handler's. -/
def deletePred (id : String) : Query :=
  if isValidObjectId id then pkPred id
  else
    [("$or", QVal.orList
      [OrClause.mk "sessionId" (SimpleCond.eqVal (Value.str id)),
       OrClause.mk "userId" (SimpleCond.eqVal (Value.str id)),
       OrClause.mk "chatId" (SimpleCond.eqVal (Value.str id))])]

/-- The `$set` payload of the update handler: `delete updates._id` first,
then `{ ...updates, updatedAt: new Date() }`. -/
def updateSetObj (updates : List (String × Value)) (now : Int) : List (String × Value) :=
  setField (removeField updates "_id") "updatedAt" (Value.date now)

/-- `PUT /api/collections/:collectionName/:id`: strips `_id` from the
body, matches via `updatePred`, 404 when `matchedCount == 0`, else 200
with `modifiedCount`.  No connection guard: `db = null` throws into the
`catch` (500). -/
def updateDoc (st : ServerState) (n id : String) (updates : List (String × Value))
    (now : Int) : ApiResult Nat × ServerState :=
  match st.db with
  | none => (ApiResult.internalError, st)
  | some dbv =>
    let coll := getColl dbv n
    let r := updateOneColl coll (updatePred id) (updateSetObj updates now)
    let st2 := ServerState.mk (some (setColl dbv n r.1)) st.isConnected
    if r.2.1 == 0 then (ApiResult.notFound, st2)
    else (ApiResult.ok r.2.2, st2)

/-- `DELETE /api/collections/:collectionName/:id`: matches via
`deletePred`, 404 when `deletedCount == 0`.  No connection guard:
`db = null` throws into the `catch` (500). -/
def deleteDoc (st : ServerState) (n id : String) : ApiResult Nat × ServerState :=
  match st.db with
  | none => (ApiResult.internalError, st)
  | some dbv =>
    let r := deleteOneColl (getColl dbv n) (deletePred id)
    let st2 := ServerState.mk (some (setColl dbv n r.1)) st.isConnected
    if r.2 == 0 then (ApiResult.notFound, st2)
    else (ApiResult.ok r.2, st2)

/-- The `ids` field of the bulk-delete body: absent, present but not an
array, or an array of strings (the ids these routes receive are strings). -/
inductive IdsArg where
  | missing : IdsArg
  | notArray : IdsArg
  | arr : List String → IdsArg

/-- The bulk-delete predicate (lines 378-389): ids that validly encode go
to ObjectId and feed the `_id $in` branch; the remaining raw strings feed
the three alternate-field `$in` branches. -/
def bulkPred (ids : List String) : Query :=
  let oids := (ids.filter (fun s => isValidObjectId s)).map mkObjectId
  let strs := (ids.filter (fun s => !isValidObjectId s)).map Value.str
  [("$or", QVal.orList
    [OrClause.mk "_id" (SimpleCond.inVals oids),
     OrClause.mk "sessionId" (SimpleCond.inVals strs),
     OrClause.mk "userId" (SimpleCond.inVals strs),
     OrClause.mk "chatId" (SimpleCond.inVals strs)])]

/-- `POST /api/collections/:collectionName/bulk-delete`: 400 when `ids` is
absent, not an array, or empty; then `deleteMany` with `bulkPred`.  The
validation runs before `db` is touched; with `db = null` the later
dereference throws into the `catch` (500). -/
def bulkDelete (st : ServerState) (n : String) (ids : IdsArg) :
    ApiResult Nat × ServerState :=
  match ids with
  | IdsArg.missing => (ApiResult.validationError, st)
  | IdsArg.notArray => (ApiResult.validationError, st)
  | IdsArg.arr l =>
    if l.isEmpty then (ApiResult.validationError, st)
    else
      match st.db with
      | none => (ApiResult.internalError, st)
      | some dbv =>
        let r := deleteManyColl (getColl dbv n) (bulkPred l)
        (ApiResult.ok r.2, ServerState.mk (some (setColl dbv n r.1)) st.isConnected)

/-! ### The browse handler (`GET /api/collections/:collectionName`) -/

/-- The fixed "common fields" the search regex is tried against
(lines 190-201). -/
def searchFields : List String :=
  ["_id", "userId", "user_id", "username", "user_name", "chatId", "chat_id",
   "sessionId", "session_id", "phoneNumber", "phone", "email"]

/-- The search predicate: the raw search string compiled as a
case-insensitive regex, OR-ed across the fixed field list. -/
def searchQuery (search : String) : Query :=
  [("$or", QVal.orList (searchFields.map
    (fun f => OrClause.mk f (SimpleCond.regex search))))]

/-- The `filter` query parameter as the handler observes it after
`JSON.parse`: the default `'{}'` (parse not attempted), a string that
fails to parse (the `catch` ignores it), or a parsed query object. -/
inductive FilterArg where
  | dflt : FilterArg
  | malformed : FilterArg
  | parsed : Query → FilterArg

/-- The query build of lines 184-214: the search `$or` when `search` is
non-empty, then `query = { ...query, ...customFilter }` when the filter
parses, unchanged when it is absent or fails to parse. -/
def buildQuery (search : String) (filter : FilterArg) : Query :=
  let q : Query := if search == "" then [] else searchQuery search
  match filter with
  | FilterArg.dflt => q
  | FilterArg.malformed => q
  | FilterArg.parsed f => mergeObj q f

/-- Sort keys: BSON total order on the value fragment in scope, with a
missing field sorting together with null below everything else
(rank, then the numeric payload, then the string payload,
lexicographically). -/
def valKey : Option Value → Lex (Nat × Lex (Int × String))
  | none => toLex (0, toLex (0, ""))
  | some Value.null => toLex (0, toLex (0, ""))
  | some (Value.int n) => toLex (1, toLex (n, ""))
  | some (Value.str s) => toLex (2, toLex (0, s))
  | some (Value.oid s) => toLex (3, toLex (0, s))
  | some (Value.date t) => toLex (4, toLex (t, ""))

/-- `.sort({[sortBy]: dir})` comparison: ascending on the field's key for
`dir = 1`, descending for `-1`. -/
def docLe (field : String) (dir : Int) (a b : Doc) : Bool :=
  if dir = 1 then decide (valKey (getField a field) ≤ valKey (getField b field))
  else decide (valKey (getField b field) ≤ valKey (getField a field))

/-- The driver's sort of a result set. -/
def sortDocs (coll : List Doc) (field : String) (dir : Int) : List Doc :=
  coll.mergeSort (docLe field dir)

/-- `sortOrder === 'desc' ? -1 : 1`. -/
def sortDir (sortOrder : String) : Int :=
  if sortOrder == "desc" then -1 else 1

/-- `Math.ceil(a / b)` on the nonnegative integers these handlers feed it
(the parsed positive `limit`); for `b = 0` JS would produce `Infinity`,
outside the modelled domain. -/
def jsCeilDiv (a b : Nat) : Nat :=
  (a + b - 1) / b

/-- Insert a key into the observed-field list unless already present
(JS `Set` insertion order). -/
def insertUniq (l : List String) (k : String) : List String :=
  if l.contains k then l else l ++ [k]

/-- The `fields` inventory: union of the top-level keys of the returned
page's documents, in first-seen order. -/
def collectFields (docs : List Doc) : List String :=
  docs.foldl (fun acc d => d.foldl (fun acc2 p => insertUniq acc2 p.1) acc) []

/-- The `pagination` block of the browse response. -/
structure Pagination where
  currentPage : Nat
  totalPages : Nat
  totalDocuments : Nat
  documentsPerPage : Nat
  hasNextPage : Bool
  hasPrevPage : Bool
deriving DecidableEq, Repr

/-- The browse response body (the per-request `collection.stats()` block
is driver-reported storage data, outside the modelled state). -/
structure BrowseResp where
  documents : List Doc
  fields : List String
  pagination : Pagination
deriving DecidableEq, Repr

/-- The browse query parameters after the handler's parsing and
defaulting (`page = 1`, `limit = 50`, `sortBy = '_id'`,
`sortOrder = 'desc'`, `search = ''`, `filter = '{}'`). -/
structure BrowseParams where
  page : Nat
  limit : Nat
  sortBy : String
  sortOrder : String
  search : String
  filter : FilterArg

/-- `GET /api/collections/:collectionName` (lines 164-255): connection
guard, query build, `countDocuments`, then
`find(query).sort(...).skip(skip).limit(limit)`, the field inventory and
the pagination block. -/
def browse (st : ServerState) (n : String) (p : BrowseParams) : ApiResult BrowseResp :=
  match st.isConnected, st.db with
  | true, some dbv =>
    let coll := getColl dbv n
    let skip := (p.page - 1) * p.limit
    let query := buildQuery p.search p.filter
    let matching := coll.filter (fun d => evalQuery query d)
    let total := matching.length
    let docs := ((sortDocs matching p.sortBy (sortDir p.sortOrder)).drop skip).take p.limit
    ApiResult.ok
      (BrowseResp.mk docs (collectFields docs)
        (Pagination.mk p.page (jsCeilDiv total p.limit) total p.limit
          (decide (skip + p.limit < total)) (decide (1 < p.page))))
  | _, _ => ApiResult.notConnected

/-! ### Age-based pruning -/

/-- Milliseconds per calendar day. -/
def msPerDay : Int := 86400000

/-- Modelled from the spec: the repository's `pruneOlderThan` /
prune-old endpoint (spec sections 4.5 and 6) has no implementation under
`src/` — only its contract is given.  Per the spec's words it computes
`cutoff = now − days` by calendar-day subtraction, deletes every document
whose `dateField` value is strictly earlier, leaves documents lacking or
mistyping that field untouched, and returns the deleted count; like the
other query operations it requires a live connection. -/
def pruneOlderThan (st : ServerState) (n : String) (now days : Int)
    (dateField : String) : ApiResult Nat × ServerState :=
  match st.isConnected, st.db with
  | true, some dbv =>
    let cutoff := now - days * msPerDay
    let q : Query := [(dateField, QVal.simple (SimpleCond.lt (Value.date cutoff)))]
    let r := deleteManyColl (getColl dbv n) q
    (ApiResult.ok r.2, ServerState.mk (some (setColl dbv n r.1)) st.isConnected)
  | _, _ => (ApiResult.notConnected, st)

/-- Modelled from the spec: the caller-supplied parameters default to
`days = 7` and `dateField = "lastActive"`. -/
def pruneOlderThanDefault (st : ServerState) (n : String) (now : Int) :
    ApiResult Nat × ServerState :=
  pruneOlderThan st n now 7 "lastActive"

/-! ### Helper lemmas about field access -/

theorem getField_nil (k : String) : getField [] k = none := rfl

theorem getField_cons (p : String × Value) (d : Doc) (k : String) :
    getField (p :: d) k = if p.1 == k then some p.2 else getField d k := by
  cases h : p.1 == k <;> simp [getField, List.find?_cons, h]

theorem getField_setField_same (d : Doc) (k : String) (v : Value) :
    getField (setField d k v) k = some v := by
  induction d with
  | nil => simp [setField, getField_cons]
  | cons p rest ih =>
    by_cases hp : (p.1 == k) = true
    · rw [setField, if_pos hp]
      simp [getField_cons]
    · rw [setField, if_neg hp]
      rw [getField_cons, if_neg hp, ih]

theorem getField_setField_ne (d : Doc) (k : String) (v : Value) (k2 : String)
    (h : k2 ≠ k) : getField (setField d k v) k2 = getField d k2 := by
  have hk : (k == k2) = false := by
    simp only [beq_eq_false_iff_ne]
    exact fun hh => h hh.symm
  induction d with
  | nil => simp [setField, getField_cons, hk, getField_nil]
  | cons p rest ih =>
    by_cases hp : (p.1 == k) = true
    · have hpk : p.1 = k := by simpa using hp
      rw [setField, if_pos hp, getField_cons, getField_cons, hk, hpk, hk]
      simp
    · rw [setField, if_neg hp, getField_cons, getField_cons, ih]

theorem mem_setField (d : Doc) (k : String) (v : Value) (q : String × Value) :
    q ∈ setField d k v → q.1 = k ∨ q ∈ d := by
  induction d with
  | nil =>
    intro h
    simp only [setField, List.mem_singleton] at h
    subst h
    exact Or.inl rfl
  | cons p rest ih =>
    by_cases hp : (p.1 == k) = true
    · intro h
      rw [setField, if_pos hp] at h
      rcases List.mem_cons.mp h with h | h
      · subst h
        exact Or.inl rfl
      · exact Or.inr (List.mem_cons_of_mem _ h)
    · intro h
      rw [setField, if_neg hp] at h
      rcases List.mem_cons.mp h with h | h
      · exact Or.inr (by rw [h]; exact List.mem_cons_self _ _)
      · rcases ih h with h2 | h2
        · exact Or.inl h2
        · exact Or.inr (List.mem_cons_of_mem _ h2)

theorem mem_removeField (d : Doc) (k : String) (q : String × Value) :
    q ∈ removeField d k → q.1 ≠ k := by
  intro h
  have h2 := List.mem_filter.mp h
  simpa using h2.2

/-- Fields not named by a `$set` payload are untouched by its application. -/
theorem getField_applySet_of_not_key (sets : List (String × Value)) (d : Doc)
    (k : String) (hk : ∀ q ∈ sets, q.1 ≠ k) :
    getField (applySet d sets) k = getField d k := by
  induction sets generalizing d with
  | nil => rfl
  | cons p rest ih =>
    have h1 : ∀ q ∈ rest, q.1 ≠ k := fun q hq => hk q (List.mem_cons_of_mem _ hq)
    have h2 : p.1 ≠ k := hk p (List.mem_cons_self _ _)
    calc getField (applySet (setField d p.1 p.2) rest) k
        = getField (setField d p.1 p.2) k := ih _ h1
      _ = getField d k := getField_setField_ne d p.1 p.2 k (fun hh => h2 hh.symm)

/-! ### Claim C1: behaviour of the operations with no live connection -/

/-- C1 counterexample: after `disconnect()` (or before any connect), the
get-one handler does not fail with `NotConnectedError` (503) — it
dereferences the null handle and its `catch` surfaces a generic 500. -/
theorem getOne_disconnected_not_notConnected :
    getOne disconnectedState "users" "abc" = ApiResult.internalError ∧
    getOne disconnectedState "users" "abc" ≠ ApiResult.notConnected := by
  exact ⟨rfl, by decide⟩

/-- C1 (amended): with no live connection (`db = null`,
`isConnected = false`), only browse and list-collections check the
connection and fail with `NotConnectedError` (503); getOne, update,
deleteOne and bulkDelete (with a non-empty id list) dereference the
missing handle and their `catch` turns the thrown error into a generic
internal error (500) — no crash, but not `NotConnectedError`.  An empty
or missing id list still fails bulk-delete validation first. -/
theorem disconnected_ops_behavior (n id : String) (p : BrowseParams)
    (updates : List (String × Value)) (now : Int) (i : String) (l : List String) :
    browse disconnectedState n p = ApiResult.notConnected ∧
    listCollections disconnectedState = ApiResult.notConnected ∧
    getOne disconnectedState n id = ApiResult.internalError ∧
    (updateDoc disconnectedState n id updates now).1 = ApiResult.internalError ∧
    (deleteDoc disconnectedState n id).1 = ApiResult.internalError ∧
    (bulkDelete disconnectedState n (IdsArg.arr (i :: l))).1 = ApiResult.internalError ∧
    (bulkDelete disconnectedState n IdsArg.missing).1 = ApiResult.validationError := by
  exact ⟨rfl, rfl, rfl, rfl, rfl, rfl, rfl⟩

/-! ### Claim C5: a filter string that fails to parse is silently dropped -/

/-- C5: for every state, collection and parameter set, a `filter` string
that fails `JSON.parse` produces exactly the same browse response as the
default (absent) filter — the search term alone decides the result set —
and on a connected state the request still succeeds. -/
theorem malformed_filter_degrades_to_search (st : ServerState) (n : String)
    (page limit : Nat) (sortBy sortOrder search : String) :
    browse st n (BrowseParams.mk page limit sortBy sortOrder search FilterArg.malformed)
      = browse st n (BrowseParams.mk page limit sortBy sortOrder search FilterArg.dflt) ∧
    ∀ dbv : DBVal, ∃ r,
      browse (ServerState.mk (some dbv) true) n
        (BrowseParams.mk page limit sortBy sortOrder search FilterArg.malformed)
        = ApiResult.ok r := by
  constructor
  · cases st with
    | mk db conn =>
      cases conn
      · rfl
      · cases db <;> rfl
  · intro dbv
    exact ⟨_, rfl⟩

/-! ### Claim C10: the search term is compiled as a raw regex -/

/-- C10 counterexample: the value `"\n"` is a non-empty string in a
listed field, yet the search `"."` does not match it — ECMAScript `.`
without the dotAll flag excludes line terminators, so search `"."` does
not match every non-empty value. -/
theorem search_dot_misses_newline :
    evalQuery (buildQuery "." FilterArg.dflt) [("username", Value.str "\n")] = false ∧
    ("\n" : String).data.isEmpty = false := by
  exact ⟨rfl, rfl⟩

/-- The unanchored search for the bare wildcard accepts exactly the
texts holding at least one non-line-terminator character. -/
theorem reSearch_dot (cs : List Char) :
    reSearch [RChar.dot] cs = cs.any (fun c => !isLineTerminator c) := by
  induction cs with
  | nil => rfl
  | cons c cs ih => simp [reSearch, matchHere, List.any_cons, ih]

/-- C10 (amended): the browse search condition compiles the raw search
string as a case-insensitive regex with no escaping, so metacharacters
act as pattern syntax: `"a.c"` matches `"abc"` and `"a&c"` as a pattern
rather than a literal, and matching is case-insensitive — but since the
dotAll flag is never set, the search `"."` matches exactly the values
holding at least one non-line-terminator character, so a non-empty value
consisting solely of line terminators is not matched. -/
theorem search_term_is_raw_regex :
    (∀ v : String,
      evalQuery (buildQuery "." FilterArg.dflt) [("username", Value.str v)]
        = v.data.any (fun c => !isLineTerminator c)) ∧
    evalSimple (SimpleCond.regex "a.c") (Value.str "abc") = true ∧
    evalSimple (SimpleCond.regex "a.c") (Value.str "a&c") = true ∧
    evalSimple (SimpleCond.regex "a.c") (Value.str "a\nc") = false ∧
    evalSimple (SimpleCond.regex "HELLO") (Value.str "xhellox") = true := by
  refine ⟨?_, by decide, by decide, by decide, by decide⟩
  intro v
  have h1 : evalQuery (buildQuery "." FilterArg.dflt) [("username", Value.str v)]
      = ((regexTest "." v || false) && true) := rfl
  rw [h1, Bool.and_true, Bool.or_false]
  exact reSearch_dot v.data

/-! ### Claim C3: update strips the primary key and stamps updatedAt -/

/-- C3: the `$set` payload the update handler applies — built by deleting
`_id` from the patch and spreading in a server `updatedAt` stamp — never
touches the matched document's `_id` (for any patch); for the patch
`{_id: X, name: y}` it sets exactly `name` and `updatedAt` and leaves
every other field, `_id` included, unchanged. -/
theorem update_strips_pk_and_stamps (d : Doc) (patch : List (String × Value))
    (X y : Value) (now : Int) :
    (getField (applySet d (updateSetObj patch now)) "_id" = getField d "_id") ∧
    (getField (applySet d (updateSetObj [("_id", X), ("name", y)] now)) "name"
      = some y) ∧
    (getField (applySet d (updateSetObj [("_id", X), ("name", y)] now)) "updatedAt"
      = some (Value.date now)) ∧
    (∀ k : String, k ≠ "name" → k ≠ "updatedAt" →
      getField (applySet d (updateSetObj [("_id", X), ("name", y)] now)) k
        = getField d k) := by
  have hobj : updateSetObj [("_id", X), ("name", y)] now
      = [("name", y), ("updatedAt", Value.date now)] := rfl
  refine ⟨?_, ?_, ?_, ?_⟩
  · apply getField_applySet_of_not_key
    intro q hq
    rcases mem_setField _ _ _ _ hq with h | h
    · rw [h]
      decide
    · have := mem_removeField _ _ _ h
      simpa using this
  · rw [hobj]
    show getField (setField (setField d "name" y) "updatedAt" (Value.date now)) "name"
      = some y
    rw [getField_setField_ne _ _ _ _ (by decide), getField_setField_same]
  · rw [hobj]
    show getField (setField (setField d "name" y) "updatedAt" (Value.date now)) "updatedAt"
      = some (Value.date now)
    rw [getField_setField_same]
  · intro k h1 h2
    rw [hobj]
    show getField (setField (setField d "name" y) "updatedAt" (Value.date now)) k
      = getField d k
    rw [getField_setField_ne _ _ _ _ h2, getField_setField_ne _ _ _ _ h1]

/-- A concrete document for witnessing the frame property. -/
def docFrame : Doc :=
  [("_id", Value.oid "cccccccccccccccccccccccc"), ("name", Value.str "old"),
   ("email", Value.str "a@b.c")]

/-- Witness for C3: at a concrete document, patch and field the frame
condition holds with its hypotheses discharged. -/
theorem update_strips_pk_and_stamps_witness :
    getField (applySet docFrame
        (updateSetObj [("_id", Value.int 9), ("name", Value.str "new")] 5)) "email"
      = getField docFrame "email" :=
  (update_strips_pk_and_stamps docFrame [] (Value.int 9) (Value.str "new") 5).2.2.2
    "email" (by decide) (by decide)

/-! ### Claim C2: the single-document match predicates -/

theorem evalQuery_singleton (k : String) (qv : QVal) (d : Doc) :
    evalQuery [(k, qv)] d = evalEntry k qv d := by
  simp [evalQuery]

theorem evalClause_mk_eq_evalEntry (f : String) (c : SimpleCond) (d : Doc) :
    evalClause (OrClause.mk f c) d = evalEntry f (QVal.simple c) d := rfl

/-- A 24-hex string used as an id that also appears as a `sessionId`. -/
def idA : String := "aaaaaaaaaaaaaaaaaaaaaaaa"

/-- A document addressed by `sessionId = idA` whose `_id` is some other
ObjectId. -/
def docSession : Doc :=
  [("sessionId", Value.str idA), ("_id", Value.oid "bbbbbbbbbbbbbbbbbbbbbbbb")]

/-- A connected state holding only that document. -/
def stSession : ServerState :=
  ServerState.mk (some [("c", [docSession])]) true

/-- C2 counterexample: for the validly-encoded id `idA`, getOne falls back
to the alternate fields and returns the document, while update and
deleteOne match via the primary key alone and report not-found — the
three operations do not use one combined OR predicate. -/
theorem single_doc_ops_not_same_predicate :
    getOne stSession "c" idA = ApiResult.ok docSession ∧
    (updateDoc stSession "c" idA [] 0).1 = ApiResult.notFound ∧
    (deleteDoc stSession "c" idA).1 = ApiResult.notFound := by
  exact ⟨rfl, rfl, rfl⟩

/-- The resolver predicate in the spec's words (section 4.2): one OR of
the primary-key match (when the id validly encodes) and the
alternate-field matches.  Stated for comparison with the source's
per-handler predicates. -/
def resolverPred (id : String) : Query :=
  if isValidObjectId id then
    [("$or", QVal.orList
      [OrClause.mk "_id" (SimpleCond.eqVal (mkObjectId id)),
       OrClause.mk "sessionId" (SimpleCond.eqVal (Value.str id)),
       OrClause.mk "userId" (SimpleCond.eqVal (Value.str id)),
       OrClause.mk "chatId" (SimpleCond.eqVal (Value.str id)),
       OrClause.mk "_id" (SimpleCond.eqVal (Value.str id))])]
  else getOneAltPred id

/-- C2 (amended): update and deleteOne do share one match predicate —
the primary-key match alone for a validly-encoded id, else the OR over
sessionId/userId/chatId — while getOne tries the primary-key match first
and then an OR that additionally includes the raw-string `_id`; every
document getOne returns satisfies the combined OR-of-both predicate, but
the mutations do not use it. -/
theorem resolver_predicates_amended :
    (∀ id : String, updatePred id = deletePred id) ∧
    (∀ (coll : List Doc) (id : String) (d : Doc),
      getOneFind coll id = some d → evalQuery (resolverPred id) d = true) := by
  constructor
  · intro id
    rfl
  · intro coll id d h
    unfold getOneFind at h
    by_cases hv : isValidObjectId id = true
    · rw [if_pos hv] at h
      cases hf : findOneColl coll (pkPred id) with
      | some d0 =>
        rw [hf] at h
        simp only [Option.some.injEq] at h
        rw [← h]
        have h1 : evalQuery (pkPred id) d0 = true := List.find?_some hf
        unfold pkPred at h1
        rw [evalQuery_singleton] at h1
        unfold resolverPred
        rw [if_pos hv, evalQuery_singleton]
        show List.any _ _ = true
        simp only [List.any_cons, Bool.or_eq_true]
        exact Or.inl (by rw [evalClause_mk_eq_evalEntry]; exact h1)
      | none =>
        rw [hf] at h
        have h1 : evalQuery (getOneAltPred id) d = true := List.find?_some h
        unfold getOneAltPred at h1
        rw [evalQuery_singleton] at h1
        unfold resolverPred
        rw [if_pos hv, evalQuery_singleton]
        show List.any _ _ = true
        simp only [List.any_cons, Bool.or_eq_true]
        have h2 : List.any _ _ = true := h1
        simp only [List.any_cons, Bool.or_eq_true, List.any_nil,
          Bool.false_eq_true, or_false] at h2
        rcases h2 with h2 | h2 | h2 | h2
        · exact Or.inr (Or.inl h2)
        · exact Or.inr (Or.inr (Or.inl h2))
        · exact Or.inr (Or.inr (Or.inr (Or.inl h2)))
        · exact Or.inr (Or.inr (Or.inr (Or.inr (Or.inl h2))))
    · rw [if_neg hv] at h
      have h1 : evalQuery (getOneAltPred id) d = true := List.find?_some h
      unfold resolverPred
      rw [if_neg hv]
      exact h1

/-- Witness for C2's amended theorem: at the concrete collection and id
the hypothesis holds and the combined predicate accepts the returned
document. -/
theorem resolver_predicates_amended_witness :
    evalQuery (resolverPred idA) docSession = true :=
  resolver_predicates_amended.2 [docSession] idA docSession (by decide)

/-! ### Claim C6: merging search and custom filter -/

/-- A parsed custom filter whose top-level key collides with the search
predicate's `$or`. -/
def filterOrColl : Query :=
  [("$or", QVal.orList [OrClause.mk "x" (SimpleCond.eqVal (Value.int 1))])]

/-- A document matching the custom filter but not the search. -/
def docX : Doc := [("x", Value.int 1)]

/-- C6 counterexample: with search `"bob"` and the parsed filter
`{"$or": ...}`, the merged predicate accepts a document that the search
condition alone rejects — the spread has silently discarded the entire
search condition, not merely resolved a field collision. -/
theorem merge_discards_search_on_or_collision :
    evalQuery (buildQuery "bob" (FilterArg.parsed filterOrColl)) docX = true ∧
    evalQuery (buildQuery "bob" FilterArg.dflt) docX = false := by
  exact ⟨rfl, rfl⟩

/-- C6 (amended): the merge is a shallow key-precedence spread.  When the
parsed filter has no top-level `$or` key, the merged predicate is exactly
the conjunction of the search condition and the filter — neither is
discarded; when the filter does carry a `$or` key, it replaces the search
condition wholesale. -/
theorem merge_search_filter_amended :
    (∀ (s : String) (f : Query) (d : Doc),
      s ≠ "" → hasKey f "$or" = false →
      evalQuery (buildQuery s (FilterArg.parsed f)) d
        = (evalQuery (searchQuery s) d && evalQuery f d)) ∧
    (∀ (s : String) (f : Query) (d : Doc),
      hasKey f "$or" = true →
      evalQuery (buildQuery s (FilterArg.parsed f)) d = evalQuery f d) := by
  constructor
  · intro s f d hs hf
    have hsb : (s == "") = false := beq_eq_false_iff_ne.mpr hs
    unfold buildQuery
    rw [hsb]
    simp only [Bool.false_eq_true, if_false]
    unfold mergeObj searchQuery
    simp [List.filter_cons, hf, evalQuery]
  · intro s f d hf
    unfold buildQuery
    cases hsb : (s == "") with
    | false =>
      simp only [Bool.false_eq_true, if_false]
      unfold mergeObj searchQuery
      simp [List.filter_cons, hf, evalQuery]
    | true =>
      unfold mergeObj
      simp [evalQuery]

/-- A parsed custom filter with no `$or` key. -/
def filterPlain : Query := [("y", QVal.simple (SimpleCond.eqVal (Value.int 2)))]

/-- A document satisfying both the search term and the plain filter. -/
def docBoth : Doc := [("y", Value.int 2), ("username", Value.str "bob")]

/-- Witness for C6's amended theorem at concrete search, filter and
documents, with both hypotheses discharged. -/
theorem merge_search_filter_amended_witness :
    evalQuery (buildQuery "bob" (FilterArg.parsed filterPlain)) docBoth
      = (evalQuery (searchQuery "bob") docBoth && evalQuery filterPlain docBoth) ∧
    evalQuery (buildQuery "bob" (FilterArg.parsed filterOrColl)) docX
      = evalQuery filterOrColl docX :=
  ⟨merge_search_filter_amended.1 "bob" filterPlain docBoth (by decide) (by decide),
   merge_search_filter_amended.2 "bob" filterOrColl docX (by decide)⟩

/-! ### Claim C4: bulk delete -/

theorem bulk_id_clause_char (ids : List String) (d : Doc) :
    evalClause (OrClause.mk "_id"
        (SimpleCond.inVals ((ids.filter (fun s => isValidObjectId s)).map mkObjectId))) d
        = true
      ↔ ∃ s ∈ ids, isValidObjectId s = true ∧ getField d "_id" = some (mkObjectId s) := by
  unfold evalClause
  cases h : getField d "_id" with
  | none => simp [h]
  | some v =>
    simp only [h, evalSimple, List.any_eq_true, List.mem_map, List.mem_filter,
      beq_iff_eq, Option.some.injEq]
    constructor
    · rintro ⟨x, ⟨s, ⟨hs, hv2⟩, rfl⟩, rfl⟩
      exact ⟨s, hs, hv2, rfl⟩
    · rintro ⟨s, hs, hv2, heq⟩
      exact ⟨mkObjectId s, ⟨s, ⟨hs, hv2⟩, rfl⟩, heq.symm⟩

theorem bulk_str_clause_char (fld : String) (ids : List String) (d : Doc) :
    evalClause (OrClause.mk fld
        (SimpleCond.inVals ((ids.filter (fun s => !isValidObjectId s)).map Value.str))) d
        = true
      ↔ ∃ s ∈ ids, isValidObjectId s = false ∧ getField d fld = some (Value.str s) := by
  unfold evalClause
  cases h : getField d fld with
  | none => simp [h]
  | some v =>
    simp only [h, evalSimple, List.any_eq_true, List.mem_map, List.mem_filter,
      Bool.not_eq_true', beq_iff_eq, Option.some.injEq]
    constructor
    · rintro ⟨x, ⟨s, ⟨hs, hv2⟩, rfl⟩, rfl⟩
      exact ⟨s, hs, hv2, rfl⟩
    · rintro ⟨s, hs, hv2, heq⟩
      exact ⟨Value.str s, ⟨s, ⟨hs, hv2⟩, rfl⟩, heq.symm⟩

/-- C4: bulk delete rejects a missing, non-array or empty id list with a
validation error (400); for a non-empty list it deletes exactly the
documents matching the OR of the primary-key branch and the three
alternate-field branches, reporting their count (each document counted
once); and a document matches that predicate exactly when some
validly-encoded input id equals its `_id`, or some non-encodable input
id equals its `sessionId`, `userId` or `chatId` — a validly-encoded id is
never routed to the string branches. -/
theorem bulkDelete_exact_union :
    (∀ (st : ServerState) (n : String),
      (bulkDelete st n IdsArg.missing).1 = ApiResult.validationError) ∧
    (∀ (st : ServerState) (n : String),
      (bulkDelete st n IdsArg.notArray).1 = ApiResult.validationError) ∧
    (∀ (st : ServerState) (n : String),
      (bulkDelete st n (IdsArg.arr [])).1 = ApiResult.validationError) ∧
    (∀ (dbv : DBVal) (b : Bool) (n i : String) (l : List String),
      bulkDelete (ServerState.mk (some dbv) b) n (IdsArg.arr (i :: l))
        = (ApiResult.ok ((getColl dbv n).countP
              (fun d => evalQuery (bulkPred (i :: l)) d)),
           ServerState.mk (some (setColl dbv n ((getColl dbv n).filter
              (fun d => !evalQuery (bulkPred (i :: l)) d)))) b)) ∧
    (∀ (ids : List String) (d : Doc),
      evalQuery (bulkPred ids) d = true ↔
        ((∃ s ∈ ids, isValidObjectId s = true ∧ getField d "_id" = some (mkObjectId s)) ∨
         (∃ s ∈ ids, isValidObjectId s = false ∧
           (getField d "sessionId" = some (Value.str s) ∨
            getField d "userId" = some (Value.str s) ∨
            getField d "chatId" = some (Value.str s))))) := by
  refine ⟨fun st n => rfl, fun st n => rfl, fun st n => rfl, fun dbv b n i l => rfl, ?_⟩
  intro ids d
  unfold bulkPred
  rw [evalQuery_singleton]
  show List.any _ _ = true ↔ _
  simp only [List.any_cons, List.any_nil, Bool.or_eq_true, Bool.false_eq_true, or_false]
  rw [bulk_id_clause_char, bulk_str_clause_char, bulk_str_clause_char, bulk_str_clause_char]
  constructor
  · rintro (h | ⟨s, hs, hv2, hg⟩ | ⟨s, hs, hv2, hg⟩ | ⟨s, hs, hv2, hg⟩)
    · exact Or.inl h
    · exact Or.inr ⟨s, hs, hv2, Or.inl hg⟩
    · exact Or.inr ⟨s, hs, hv2, Or.inr (Or.inl hg)⟩
    · exact Or.inr ⟨s, hs, hv2, Or.inr (Or.inr hg)⟩
  · rintro (h | ⟨s, hs, hv2, hg | hg | hg⟩)
    · exact Or.inl h
    · exact Or.inr (Or.inl ⟨s, hs, hv2, hg⟩)
    · exact Or.inr (Or.inr (Or.inl ⟨s, hs, hv2, hg⟩))
    · exact Or.inr (Or.inr (Or.inr ⟨s, hs, hv2, hg⟩))

/-! ### Claim C8: age-based pruning (spec-modelled) -/

/-- C8: `pruneOlderThan` deletes exactly the documents whose `dateField`
holds a date strictly earlier than `now − days` (in calendar days);
documents lacking the field or holding a non-date value never match, so
they are untouched; and the defaulted entry point uses `days = 7`,
`dateField = "lastActive"`. -/
theorem pruneOlderThan_exact :
    (∀ (dbv : DBVal) (n : String) (now days : Int) (f : String),
      pruneOlderThan (ServerState.mk (some dbv) true) n now days f
        = (ApiResult.ok ((getColl dbv n).countP (fun d =>
             evalQuery [(f, QVal.simple (SimpleCond.lt
               (Value.date (now - days * msPerDay))))] d)),
           ServerState.mk (some (setColl dbv n ((getColl dbv n).filter (fun d =>
             !evalQuery [(f, QVal.simple (SimpleCond.lt
               (Value.date (now - days * msPerDay))))] d)))) true)) ∧
    (∀ (f : String) (cutoff : Int) (d : Doc),
      evalQuery [(f, QVal.simple (SimpleCond.lt (Value.date cutoff)))] d = true ↔
        ∃ t : Int, getField d f = some (Value.date t) ∧ t < cutoff) ∧
    (∀ (st : ServerState) (n : String) (now : Int),
      pruneOlderThanDefault st n now = pruneOlderThan st n now 7 "lastActive") := by
  refine ⟨fun dbv n now days f => rfl, ?_, fun st n now => rfl⟩
  intro f cutoff d
  rw [evalQuery_singleton]
  unfold evalEntry
  cases h : getField d f with
  | none => simp [h]
  | some v => cases v <;> simp [h, evalSimple, valueLt]

/-! ### Claim C9: no dynamic search-field fallback exists -/

/-- `db.collection(name)` on a singleton database reads that collection. -/
theorem getColl_singleton (n : String) (coll : List Doc) :
    getColl [(n, coll)] n = coll := by
  unfold getColl
  rw [List.find?_cons_of_pos _ (by simp)]

/-- C9 (amended): the browse search predicate is always built from the
fixed conventional field list; there is no sampling fallback.  On any
collection none of whose documents carry any of the fixed fields, a
non-empty search (with the default filter) matches nothing: the page is
empty and the total count is zero. -/
theorem search_without_fixed_fields_matches_nothing
    (coll : List Doc) (n : String) (p : BrowseParams)
    (hf : ∀ d ∈ coll, ∀ f2 ∈ searchFields, getField d f2 = none)
    (hs : p.search ≠ "") (hfil : p.filter = FilterArg.dflt) :
    ∃ r, browse (ServerState.mk (some [(n, coll)]) true) n p = ApiResult.ok r ∧
      r.documents = [] ∧ r.pagination.totalDocuments = 0 := by
  have hq : ∀ d ∈ coll, evalQuery (buildQuery p.search p.filter) d = false := by
    intro d hd
    rw [hfil]
    unfold buildQuery
    have hsb : (p.search == "") = false := beq_eq_false_iff_ne.mpr hs
    rw [hsb]
    simp only [Bool.false_eq_true, if_false]
    unfold searchQuery
    rw [evalQuery_singleton]
    show List.any _ _ = false
    rw [List.any_eq_false]
    intro cl hcl
    rcases List.mem_map.mp hcl with ⟨f2, hf2, rfl⟩
    simp [evalClause, hf d hd f2 hf2]
  have hm : coll.filter (fun d => evalQuery (buildQuery p.search p.filter) d) = [] := by
    rw [List.filter_eq_nil_iff]
    intro d hd
    simp [hq d hd]
  have hb : browse (ServerState.mk (some [(n, coll)]) true) n p
      = ApiResult.ok (BrowseResp.mk [] []
          (Pagination.mk p.page (jsCeilDiv 0 p.limit) 0 p.limit
            (decide ((p.page - 1) * p.limit + p.limit < 0)) (decide (1 < p.page)))) := by
    simp only [browse, getColl_singleton, hm]
    simp [sortDocs, List.mergeSort_nil, List.drop_nil, List.take_nil, collectFields]
  exact ⟨_, hb, rfl, rfl⟩

/-- A collection whose single document has only a `title` field — none of
the fixed search fields. -/
def collTitle : List Doc := [[("title", Value.str "hello")]]

/-- Browse parameters searching for `"hello"`. -/
def pTitle : BrowseParams := BrowseParams.mk 1 50 "_id" "desc" "hello" FilterArg.dflt

/-- Witness for C9's amended theorem at the concrete collection, with all
hypotheses discharged. -/
theorem search_without_fixed_fields_witness :
    ∃ r, browse (ServerState.mk (some [("c", collTitle)]) true) "c" pTitle
        = ApiResult.ok r ∧
      r.documents = [] ∧ r.pagination.totalDocuments = 0 :=
  search_without_fixed_fields_matches_nothing collTitle "c" pTitle
    (by decide) (by decide) rfl

/-- C9 counterexample: searching `"hello"` on a collection whose only
document's sole scalar field is the string `"hello"` returns an empty
page and a zero count, even though the claimed sampled-field fallback
would have matched that field (the regex does accept the value) — no
such fallback exists in the code. -/
theorem search_fallback_missing_counterexample :
    browse (ServerState.mk (some [("c", collTitle)]) true) "c" pTitle
      = ApiResult.ok (BrowseResp.mk [] [] (Pagination.mk 1 0 0 50 false false)) ∧
    evalSimple (SimpleCond.regex "hello") (Value.str "hello") = true := by
  constructor
  · have hm : collTitle.filter
        (fun d => evalQuery (buildQuery pTitle.search pTitle.filter) d) = [] := by decide
    simp only [browse, getColl_singleton, hm]
    simp [sortDocs, List.mergeSort_nil, collectFields, pTitle, jsCeilDiv]
  · decide

/-! ### Claim C7: browse pagination and sorting -/

theorem docLe_trans (f : String) (dir : Int) :
    ∀ a b c : Doc, docLe f dir a b → docLe f dir b c → docLe f dir a c := by
  intro a b c
  unfold docLe
  by_cases h : dir = 1
  · simp only [if_pos h, decide_eq_true_eq]
    exact fun h1 h2 => le_trans h1 h2
  · simp only [if_neg h, decide_eq_true_eq]
    exact fun h1 h2 => le_trans h2 h1

theorem docLe_total (f : String) (dir : Int) :
    ∀ a b : Doc, docLe f dir a b || docLe f dir b a := by
  intro a b
  unfold docLe
  by_cases h : dir = 1
  · simp only [if_pos h, Bool.or_eq_true, decide_eq_true_eq]
    exact le_total _ _
  · simp only [if_neg h, Bool.or_eq_true, decide_eq_true_eq]
    exact le_total _ _

/-- Any window of a driver sort is pairwise ordered by the comparison. -/
theorem sortDocs_pairwise (coll : List Doc) (f : String) (dir : Int)
    (skip lim : Nat) :
    (((sortDocs coll f dir).drop skip).take lim).Pairwise
      (fun a b => docLe f dir a b = true) := by
  unfold sortDocs
  have hs := List.sorted_mergeSort (docLe_trans f dir) (docLe_total f dir) coll
  exact List.Pairwise.sublist
    (List.Sublist.trans (List.take_sublist _ _) (List.drop_sublist _ _)) hs

/-- `(t + l - 1) / l` is the ceiling of `t / l` for positive `l`:
zero at zero, and otherwise the least page count covering `t`. -/
theorem jsCeilDiv_spec (t l : Nat) (hl : 1 ≤ l) :
    (t = 0 → jsCeilDiv t l = 0) ∧
    (0 < t → (jsCeilDiv t l - 1) * l < t ∧ t ≤ jsCeilDiv t l * l) := by
  constructor
  · intro h
    subst h
    have h2 : l - 1 < l := by omega
    simpa [jsCeilDiv] using Nat.div_eq_of_lt h2
  · intro ht
    have e := Nat.div_add_mod (t + l - 1) l
    have hr : (t + l - 1) % l < l := Nat.mod_lt _ (by omega)
    have h1 : 1 ≤ (t + l - 1) / l := (Nat.one_le_div_iff (by omega)).mpr (by omega)
    rcases Nat.exists_eq_add_of_le h1 with ⟨qq, hqe⟩
    rw [hqe, Nat.mul_add, Nat.mul_one, Nat.mul_comm l qq] at e
    have hj : jsCeilDiv t l = 1 + qq := hqe
    rw [hj]
    constructor
    · have hs2 : (1 + qq - 1) * l = qq * l := by
        congr 1
        omega
      rw [hs2]
      generalize hx : qq * l = x at e ⊢
      omega
    · rw [Nat.add_mul, Nat.one_mul]
      generalize hx : qq * l = x at e ⊢
      omega

/-- The C7 pagination contract of the browse handler, for one connected
state, collection and parameter set: the page is the `(page-1)*limit`
window of the sorted matching set, holds at most `limit` documents,
is pairwise sorted descending exactly when `sortOrder = "desc"` and
ascending otherwise, and the pagination block reports the page, the
total matching count, the page size, both availability flags, and a
`totalPages` equal to the ceiling of `total / limit`. -/
def browsePageSpec (dbv : DBVal) (n : String) (p : BrowseParams) : Prop :=
  ∃ r, browse (ServerState.mk (some dbv) true) n p = ApiResult.ok r ∧
    r.documents.length ≤ p.limit ∧
    r.documents
      = ((sortDocs ((getColl dbv n).filter (fun d =>
            evalQuery (buildQuery p.search p.filter) d)) p.sortBy
          (sortDir p.sortOrder)).drop ((p.page - 1) * p.limit)).take p.limit ∧
    (p.sortOrder = "desc" →
      r.documents.Pairwise (fun a b => docLe p.sortBy (-1) a b = true)) ∧
    (p.sortOrder ≠ "desc" →
      r.documents.Pairwise (fun a b => docLe p.sortBy 1 a b = true)) ∧
    r.pagination.currentPage = p.page ∧
    r.pagination.totalDocuments
      = ((getColl dbv n).filter (fun d =>
          evalQuery (buildQuery p.search p.filter) d)).length ∧
    r.pagination.documentsPerPage = p.limit ∧
    r.pagination.hasNextPage
      = decide ((p.page - 1) * p.limit + p.limit < r.pagination.totalDocuments) ∧
    r.pagination.hasPrevPage = decide (1 < p.page) ∧
    (r.pagination.totalDocuments = 0 → r.pagination.totalPages = 0) ∧
    (0 < r.pagination.totalDocuments →
      (r.pagination.totalPages - 1) * p.limit < r.pagination.totalDocuments ∧
      r.pagination.totalDocuments ≤ r.pagination.totalPages * p.limit)

/-- C7: the browse handler meets the pagination contract for every
database value, collection name and parameter set with 1-based page and
positive limit (the handler's own parse defaults). -/
theorem browse_page_sort_and_pagination (dbv : DBVal) (n : String)
    (p : BrowseParams) (hpage : 1 ≤ p.page) (hlimit : 1 ≤ p.limit) :
    browsePageSpec dbv n p := by
  unfold browsePageSpec
  refine ⟨_, rfl, ?_, rfl, ?_, ?_, rfl, rfl, rfl, rfl, rfl, ?_, ?_⟩
  · show (List.take p.limit _).length ≤ p.limit
    rw [List.length_take]
    exact Nat.min_le_left _ _
  · intro h
    have hdir : sortDir p.sortOrder = -1 := by
      rw [sortDir, h]
      decide
    rw [hdir]
    exact sortDocs_pairwise _ p.sortBy (-1) _ _
  · intro h
    have hb : (p.sortOrder == "desc") = false := beq_eq_false_iff_ne.mpr h
    have hdir : sortDir p.sortOrder = 1 := by
      rw [sortDir, hb]
      decide
    rw [hdir]
    exact sortDocs_pairwise _ p.sortBy 1 _ _
  · intro h0
    exact (jsCeilDiv_spec _ p.limit hlimit).1 h0
  · intro h0
    exact (jsCeilDiv_spec _ p.limit hlimit).2 h0

/-- A three-document collection with an integer sort field. -/
def dbvBrowse : DBVal :=
  [("c", [[("n", Value.int 2)], [("n", Value.int 1)], [("n", Value.int 3)]])]

/-- First page of two, ascending by `n`, no search or filter. -/
def pBrowse : BrowseParams := BrowseParams.mk 1 2 "n" "asc" "" FilterArg.dflt

/-- Witness for C7 at a concrete database and parameter set, hypotheses
discharged. -/
theorem browse_page_sort_and_pagination_witness : browsePageSpec dbvBrowse "c" pBrowse :=
  browse_page_sort_and_pagination dbvBrowse "c" pBrowse (by decide) (by decide)
